import Mathlib

/-!
Shallow embedding of the Go TCP port scanner (`main.go`) and proofs of the
specification claims about it.

The embedding models:
* `scanPort` — one TCP probe (dial outcome and banner read supplied as an
  oracle `NetEnv`, since the network is external);
* `parsePorts` / `parseTargets` — the pure helper functions;
* the worker pool inside `scanHost` — as a small-step transition system
  (`Step`) whose states track the pending queue, the probes in flight and
  the finished ports, with the close of the result channel as a `close`
  transition;
* the summary construction at the end of `scanHost` (`summarize`);
* the JSON marshalling of `ScanSummary` (`marshalScanSummary`) and the
  human-readable per-port line (`formatPortLine`).
-/

namespace PortScanner

/-- Whitespace predicate of Go's `unicode.IsSpace` restricted to the
Latin-1 range: tab, newline, vertical tab, form feed, carriage return,
space, next line (U+0085) and no-break space (U+00A0). -/
def goIsSpace (c : Char) : Bool :=
  c == '\t' || c == '\n' || c == Char.ofNat 11 || c == Char.ofNat 12 ||
  c == '\r' || c == ' ' || c == Char.ofNat 133 || c == Char.ofNat 160

/-- Character-list core of Go's `strings.TrimSpace`: drop whitespace from
both ends. -/
def trimSpaceList (l : List Char) : List Char :=
  ((l.dropWhile goIsSpace).reverse.dropWhile goIsSpace).reverse

/-- Model of Go's `strings.TrimSpace`. -/
def goTrimSpace (s : String) : String :=
  ⟨trimSpaceList s.data⟩

/-- Model of slicing a read buffer: the first `n` characters of `s`
(Go's `buf[:n]` with `n ≤ len(buf)`). -/
def strTake (s : String) (n : Nat) : String :=
  ⟨s.data.take n⟩

/-- Go struct `ScanResult` (fields `Port`, `State`, `Banner`; an empty
`Banner` string is Go's absent banner). -/
structure ScanResult where
  Port : Int
  State : String
  Banner : String
deriving DecidableEq, Repr

/-- Go struct `ScanSummary`. `TimeTaken` is a `time.Duration`, i.e. an
`int64` count of nanoseconds. -/
structure ScanSummary where
  Target : String
  OpenPorts : Int
  ScannedPorts : Int
  TimeTaken : Int
  Ports : List ScanResult
deriving DecidableEq, Repr

/-- Outcome of one `conn.Read` call: the bytes placed in the buffer and
whether the call also returned a non-nil error (which `scanPort` discards
via `n, _ := conn.Read(buf)`). -/
structure ReadResult where
  data : String
  readErr : Bool

/-- An established TCP connection, abstracted as what a single `Read`
under a given deadline (in seconds) would return. -/
structure Conn where
  read : Nat → ReadResult

/-- Oracle for `net.DialTimeout("tcp", host:port, timeout)`: `none` means
the dial returned a non-nil error (refused, timed out, unreachable, DNS
failure — all conflated, exactly as the code only tests `err != nil`). -/
structure NetEnv where
  dial : Option Conn

/-- The fixed read deadline `scanPort` sets before the banner read:
`conn.SetReadDeadline(time.Now().Add(2 * time.Second))`. -/
def bannerDeadlineSeconds : Nat := 2

/-- Size of the banner read buffer: `buf := make([]byte, 256)`. -/
def bannerBufSize : Nat := 256

/-- Model of `scanPort(host, port, timeout, grabBanner)`. The dial and
read outcomes come from the `NetEnv` oracle; everything else follows the
source line by line. -/
def scanPort (host : String) (port : Int) (timeoutSec : Nat)
    (grabBanner : Bool) (net : NetEnv) : ScanResult :=
  match net.dial with
  | none => { Port := port, State := "closed", Banner := "" }
  | some conn =>
    let result : ScanResult := { Port := port, State := "open", Banner := "" }
    if grabBanner then
      let r := conn.read bannerDeadlineSeconds
      let buf := strTake r.data bannerBufSize
      if buf.length > 0 then { result with Banner := goTrimSpace buf }
      else result
    else result

/-- Value of the decimal digit list (big-endian), as accumulated by
`strconv.Atoi`. -/
def digitsToNat (l : List Char) : Nat :=
  l.foldl (fun a c => a * 10 + (c.toNat - 48)) 0

/-- Splitting a character list at every occurrence of `sep`, the
character-list core of Go's `strings.Split` with a one-character
separator (`strings.Split("", sep)` is `[""]`, so the empty list yields
one empty group). -/
def splitOnChar (sep : Char) : List Char → List (List Char)
  | [] => [[]]
  | c :: rest =>
    if c = sep then [] :: splitOnChar sep rest
    else
      match splitOnChar sep rest with
      | [] => [[c]]
      | g :: gs => (c :: g) :: gs

/-- Model of Go's `strings.Split(s, sep)` for a one-character separator. -/
def goSplit (s : String) (sep : Char) : List String :=
  (splitOnChar sep s.data).map (fun l => ⟨l⟩)

/-- Model of Go's `strconv.Atoi`: optional sign, one or more decimal
digits, rejected (`none`) on empty input, on any other character, and on
overflow of a 64-bit signed int (Go returns `ErrRange`, a non-nil error). -/
def atoi (s : String) : Option Int :=
  let signAndDigits : Int × List Char :=
    match s.data with
    | '+' :: rest => (1, rest)
    | '-' :: rest => (-1, rest)
    | l => (1, l)
  let sign := signAndDigits.1
  let digits := signAndDigits.2
  if digits = [] then none
  else if digits.all Char.isDigit then
    let v : Int := sign * (digitsToNat digits : Int)
    if v < -(2 ^ 63) ∨ 2 ^ 63 - 1 < v then none else some v
  else none

/-- The ascending range `for p := start; p <= end; p++` of `parsePorts`. -/
def rangeInclusive (start endP : Int) : List Int :=
  (List.range (endP + 1 - start).toNat).map (fun i => start + i)

/-- Model of `parsePorts(portList, start, end)`: an explicit non-empty
list is split on commas and each trimmed entry kept only when `Atoi`
succeeds and the value is in (0, 65535]; otherwise the inclusive range. -/
def parsePorts (portList : String) (start endP : Int) : List Int :=
  if portList ≠ "" then
    (goSplit portList ',').filterMap (fun p =>
      match atoi (goTrimSpace p) with
      | some port => if 0 < port ∧ port ≤ 65535 then some port else none
      | none => none)
  else rangeInclusive start endP

/-- Modelled from the spec: one entry of the explicit port list is kept
exactly when it parses as an integer in [1, 65535] (spec wording of the
Port Set Builder contract), to be compared with `parsePorts`. -/
def specPortEntry (entry : String) : Option Int :=
  (atoi (goTrimSpace entry)).bind
    (fun port => if 1 ≤ port ∧ port ≤ 65535 then some port else none)

/-- Model of `parseTargets(defaultTarget, targetList)`. -/
def parseTargets (defaultTarget targetList : String) : List String :=
  if targetList = "" then [defaultTarget]
  else goSplit targetList ','

/-- States of the `scanHost` worker pool: ports not yet taken from the
task channel, ports currently being probed by a worker, finished ports in
completion order, and whether the result channel has been closed. -/
structure PoolState where
  pending : List Int
  inFlight : List Int
  done : List Int
  closed : Bool
deriving DecidableEq, Repr

/-- One transition of the `scanHost` pool with `workers` workers: a free
worker takes the next queued port (`claim`, only while fewer than
`workers` probes run), a worker finishes its probe and publishes the
outcome (`finish`), or the collector goroutine closes the result channel
after `wg.Wait()` (`close`, only when no port is pending or in flight). -/
inductive Step (workers : Nat) : PoolState → PoolState → Prop
  | claim (p : Int) (rest fl d : List Int) :
      fl.length < workers →
      Step workers ⟨p :: rest, fl, d, false⟩ ⟨rest, p :: fl, d, false⟩
  | finish (p : Int) (pd fl d : List Int) :
      p ∈ fl →
      Step workers ⟨pd, fl, d, false⟩ ⟨pd, fl.erase p, d ++ [p], false⟩
  | close (d : List Int) :
      Step workers ⟨[], [], d, false⟩ ⟨[], [], d, true⟩

/-- Initial pool state: every port queued, nothing probed. -/
def initState (ports : List Int) : PoolState :=
  ⟨ports, [], [], false⟩

/-- Reachability in the pool transition system. -/
def Reaches (workers : Nat) : PoolState → PoolState → Prop :=
  Relation.ReflTransGen (Step workers)

/-- The results the collector receives for a given completion order: each
worker sends exactly `scanPort host port timeout grabBanner` for the port
it probed. -/
def scanHostResults (host : String) (timeoutSec : Nat) (grabBanner : Bool)
    (net : Int → NetEnv) (doneOrder : List Int) : List ScanResult :=
  doneOrder.map (fun p => scanPort host p timeoutSec grabBanner (net p))

/-- The summary built at the end of `scanHost`: open results accumulated
in arrival order, counts from lengths, `ScannedPorts` from `len(ports)`,
`TimeTaken` from `time.Since(start)` (an oracle here). -/
def summarize (host : String) (ports : List Int) (elapsedNs : Int)
    (results : List ScanResult) : ScanSummary :=
  let openPorts := results.filter (fun r => r.State == "open")
  { Target := host
    OpenPorts := (openPorts.length : Int)
    ScannedPorts := (ports.length : Int)
    TimeTaken := elapsedNs
    Ports := openPorts }

/-- JSON values, as far as this program's output needs them. -/
inductive Json where
  | num (n : Int)
  | str (s : String)
  | arr (elems : List Json)
  | obj (fields : List (String × Json))

/-- JSON marshalling of one `ScanResult` under its struct tags: `port`,
`state`, and `banner` with `omitempty` (omitted when the string is empty). -/
def marshalScanResult (r : ScanResult) : Json :=
  Json.obj ([("port", Json.num r.Port), ("state", Json.str r.State)] ++
    (if r.Banner = "" then [] else [("banner", Json.str r.Banner)]))

/-- JSON marshalling of a `ScanSummary` under its struct tags, in field
order. `TimeTaken` is a `time.Duration`, which `encoding/json` renders as
its underlying `int64` nanosecond count, under the key `time_taken_ms`.
The `ports` key carries `omitempty`: omitted when the slice is empty. -/
def marshalScanSummary (s : ScanSummary) : Json :=
  Json.obj ([("target", Json.str s.Target),
             ("open_ports", Json.num s.OpenPorts),
             ("scanned_ports", Json.num s.ScannedPorts),
             ("time_taken_ms", Json.num s.TimeTaken)] ++
    (if s.Ports = [] then [] else [("ports", Json.arr (s.Ports.map marshalScanResult))]))

/-- The human-readable line `generateOutput` prints for one open port:
`"%d/tcp %s"`, with `" | <banner>"` appended only when `Banner` is
non-empty. -/
def formatPortLine (r : ScanResult) : String :=
  let output := toString r.Port ++ "/tcp " ++ r.State
  if r.Banner ≠ "" then output ++ " | " ++ r.Banner else output

/-- Concrete network used in witnesses: port 80 accepts the connection
(and its service sends nothing), every other port refuses. -/
def witnessNet : Int → NetEnv := fun p =>
  if p = 80 then { dial := some { read := fun _ => { data := "", readErr := false } } }
  else { dial := none }

/-- Concrete connection whose service sends an SSH banner on connect. -/
def sshConn : Conn :=
  { read := fun _ => { data := "SSH-2.0-OpenSSH_8.9\r\n", readErr := false } }

/-- Concrete connection whose read returns one byte together with an
error, as the `io.Reader` contract allows. -/
def errConn : Conn :=
  { read := fun _ => { data := "x", readErr := true } }

/-- Concrete connection whose service sends only whitespace. -/
def wsConn : Conn :=
  { read := fun _ => { data := " \r\n ", readErr := false } }

/- Helper lemmas about the pool transition system. -/

/-- Every state reachable from `initState ports` keeps at most `workers`
probes in flight, conserves the multiset of ports across the pending
queue, the in-flight set and the finished list, and is empty of pending
and in-flight work once closed. -/
theorem pool_invariant {workers : Nat} {ports : List Int} {s : PoolState}
    (h : Reaches workers (initState ports) s) :
    s.inFlight.length ≤ workers ∧
    ((s.pending : Multiset Int) + (s.inFlight : Multiset Int) + (s.done : Multiset Int)
      = (ports : Multiset Int)) ∧
    (s.closed = true → s.pending = [] ∧ s.inFlight = []) := by
  induction h with
  | refl => simp [initState]
  | tail hr hstep ih =>
    obtain ⟨ih1, ih2, ih3⟩ := ih
    cases hstep with
    | claim p rest fl d hlt =>
      refine ⟨hlt, ?_, by simp⟩
      rw [← ih2]
      simp only [← Multiset.cons_coe, Multiset.cons_add, Multiset.add_cons]
    | finish p pd fl d hp =>
      refine ⟨le_trans (List.Sublist.length_le (List.erase_sublist p fl)) ih1, ?_, by simp⟩
      have hfl : (fl : Multiset Int) = {p} + ((fl.erase p : List Int) : Multiset Int) := by
        rw [Multiset.singleton_add, Multiset.cons_coe]
        exact Multiset.coe_eq_coe.mpr (List.perm_cons_erase hp)
      rw [← ih2, hfl]
      simp only [← Multiset.coe_add, Multiset.coe_singleton]
      abel
    | close d =>
      exact ⟨ih1, ih2, fun _ => ⟨rfl, rfl⟩⟩

/-- No transition leaves a state whose result channel is already closed:
the completion signal cannot be issued twice. -/
theorem no_step_of_closed {workers : Nat} {s t : PoolState} (hc : s.closed = true)
    (h : Step workers s t) : False := by
  cases h <;> simp_all

/-- Every in-flight probe can be finished, draining the in-flight set. -/
theorem drain_inFlight {workers : Nat} :
    ∀ (fl pd d : List Int), Reaches workers ⟨pd, fl, d, false⟩ ⟨pd, [], d ++ fl, false⟩
  | [], pd, d => by
    simp only [List.append_nil]
    exact Relation.ReflTransGen.refl
  | p :: fl, pd, d => by
    have hstep : Step workers ⟨pd, p :: fl, d, false⟩ ⟨pd, fl, d ++ [p], false⟩ := by
      have h := @Step.finish workers p pd (p :: fl) d (List.mem_cons_self p fl)
      simpa [List.erase_cons_head] using h
    have htail := @drain_inFlight workers fl pd (d ++ [p])
    have h := Relation.ReflTransGen.head hstep htail
    simpa [List.append_assoc] using h

/-- With at least one worker, the whole pending queue can be claimed and
finished one port at a time. -/
theorem seq_run {workers : Nat} (hW : 1 ≤ workers) :
    ∀ (pd d : List Int), Reaches workers ⟨pd, [], d, false⟩ ⟨[], [], d ++ pd, false⟩
  | [], d => by
    simp only [List.append_nil]
    exact Relation.ReflTransGen.refl
  | p :: pd, d => by
    have h1 : Step workers ⟨p :: pd, [], d, false⟩ ⟨pd, [p], d, false⟩ :=
      Step.claim p pd [] d (by simpa using hW)
    have h2 : Step workers ⟨pd, [p], d, false⟩ ⟨pd, [], d ++ [p], false⟩ := by
      have h := @Step.finish workers p pd [p] d (List.mem_cons_self p [])
      simpa [List.erase_cons_head] using h
    have htail := seq_run hW pd (d ++ [p])
    have h := Relation.ReflTransGen.head h1 (Relation.ReflTransGen.head h2 htail)
    simpa [List.append_assoc] using h

/-- With at least one worker, the run that probes the ports in queue
order reaches the closed state whose completion order is the submission
order. -/
theorem seq_reach_closed {workers : Nat} (hW : 1 ≤ workers) (ports : List Int) :
    Reaches workers (initState ports) ⟨[], [], ports, true⟩ := by
  have h1 := @seq_run workers hW ports []
  have h2 : Step workers ⟨[], [], [] ++ ports, false⟩ ⟨[], [], [] ++ ports, true⟩ :=
    Step.close ([] ++ ports)
  exact Relation.ReflTransGen.tail h1 h2

/-- From any reachable open state the pool can run to completion: finish
everything in flight, work off the queue, then close. -/
theorem close_from_state {workers : Nat} (hW : 1 ≤ workers) (s : PoolState)
    (hc : s.closed = false) :
    Reaches workers s ⟨[], [], s.done ++ s.inFlight ++ s.pending, true⟩ := by
  obtain ⟨pd, fl, d, c⟩ := s
  subst hc
  have h1 := @drain_inFlight workers fl pd d
  have h2 := @seq_run workers hW pd (d ++ fl)
  have h3 : Step workers ⟨[], [], (d ++ fl) ++ pd, false⟩ ⟨[], [], (d ++ fl) ++ pd, true⟩ :=
    Step.close ((d ++ fl) ++ pd)
  exact (h1.trans h2).trans (Relation.ReflTransGen.single h3)

/-- The explicit-list branch of `parsePorts` keeps exactly the entries
the spec describes: those whose trimmed text parses as an integer in
[1, 65535]. -/
theorem parsePorts_explicit_eq (portList : String) (start endP : Int)
    (h : portList ≠ "") :
    parsePorts portList start endP = (goSplit portList ',').filterMap specPortEntry := by
  unfold parsePorts
  rw [if_pos h]
  have hf : (fun p => match atoi (goTrimSpace p) with
      | some port => if 0 < port ∧ port ≤ 65535 then some port else none
      | none => none) = specPortEntry := by
    funext e
    unfold specPortEntry
    cases hx : atoi (goTrimSpace e) with
    | none => simp
    | some port =>
      simp only [Option.some_bind]
      exact if_congr (by omega) rfl rfl
  rw [hf]

/-- Trimming a list of whitespace characters leaves nothing. -/
theorem trimSpaceList_eq_nil {l : List Char} (h : ∀ c ∈ l, goIsSpace c = true) :
    trimSpaceList l = [] := by
  unfold trimSpaceList
  rw [List.dropWhile_eq_nil_iff.mpr h]
  simp

/-- Trimming never lengthens a list. -/
theorem trimSpaceList_length_le (l : List Char) : (trimSpaceList l).length ≤ l.length := by
  unfold trimSpaceList
  rw [List.length_reverse]
  calc ((l.dropWhile goIsSpace).reverse.dropWhile goIsSpace).length
      ≤ (l.dropWhile goIsSpace).reverse.length :=
        List.Sublist.length_le (List.dropWhile_sublist goIsSpace)
    _ = (l.dropWhile goIsSpace).length := List.length_reverse _
    _ ≤ l.length := List.Sublist.length_le (List.dropWhile_sublist goIsSpace)

/-- A non-empty string has positive length. -/
theorem string_length_pos {s : String} (h : s ≠ "") : 0 < s.length := by
  obtain ⟨l⟩ := s
  cases l with
  | nil => exact absurd (by decide) h
  | cons c cs => simp [String.length]

/-- Characterization of `scanPort` on a successful dial with banner
grabbing on: the state is "open" and the banner is the trimmed buffered
read when any byte came back, empty otherwise. -/
theorem scanPort_banner_eq (host : String) (port : Int) (timeoutSec : Nat)
    (conn : Conn) :
    scanPort host port timeoutSec true { dial := some conn } =
      { Port := port, State := "open",
        Banner :=
          if 0 < (strTake (conn.read bannerDeadlineSeconds).data bannerBufSize).length
          then goTrimSpace (strTake (conn.read bannerDeadlineSeconds).data bannerBufSize)
          else "" } := by
  show (if 0 < (strTake (conn.read bannerDeadlineSeconds).data bannerBufSize).length
      then { Port := port, State := "open",
             Banner := goTrimSpace (strTake (conn.read bannerDeadlineSeconds).data bannerBufSize) }
      else ({ Port := port, State := "open", Banner := "" } : ScanResult)) = _
  by_cases h : 0 < (strTake (conn.read bannerDeadlineSeconds).data bannerBufSize).length
  · rw [if_pos h, if_pos h]
  · rw [if_neg h, if_neg h]

/-- Completed runs probe every submitted port exactly once: the
completion order is a permutation of the submitted sequence. -/
theorem done_perm_of_closed {workers : Nat} {ports : List Int} {s : PoolState}
    (h : Reaches workers (initState ports) s) (hc : s.closed = true) :
    List.Perm s.done ports := by
  obtain ⟨-, hcons, hempty⟩ := pool_invariant h
  obtain ⟨hp, hf⟩ := hempty hc
  apply Multiset.coe_eq_coe.mp
  rw [← hcons, hp, hf]
  simp

/- Claim theorems. -/

/-- C3: for every host, port, timeout and banner flag, `scanPort` returns
exactly one result (a total function whose state is "open" or "closed"
and whose port echoes the input) and never raises an error: a failed dial
— refused, timed out, unreachable, DNS failure are all a non-nil `err` —
yields state "closed" with no banner, and a successful dial yields state
"open". -/
theorem scanPort_total_and_failure_closed (host : String) (port : Int)
    (timeoutSec : Nat) (grabBanner : Bool) (net : NetEnv) :
    ((scanPort host port timeoutSec grabBanner net).Port = port ∧
      ((scanPort host port timeoutSec grabBanner net).State = "open" ∨
        (scanPort host port timeoutSec grabBanner net).State = "closed")) ∧
    (net.dial = none →
      scanPort host port timeoutSec grabBanner net =
        { Port := port, State := "closed", Banner := "" }) ∧
    (∀ conn, net.dial = some conn →
      (scanPort host port timeoutSec grabBanner net).State = "open") := by
  obtain ⟨dial⟩ := net
  cases dial with
  | none =>
    exact ⟨⟨rfl, Or.inr rfl⟩, fun _ => rfl, fun conn hc => Option.noConfusion hc⟩
  | some conn =>
    cases grabBanner with
    | false =>
      exact ⟨⟨rfl, Or.inl rfl⟩, fun hc => Option.noConfusion hc, fun c _ => rfl⟩
    | true =>
      rw [scanPort_banner_eq]
      exact ⟨⟨rfl, Or.inl rfl⟩, fun hc => Option.noConfusion hc, fun c _ => rfl⟩

/-- C3 witness: a refused dial on port 22 produces the closed outcome. -/
theorem scanPort_total_and_failure_closed_witness :
    scanPort "scanme.nmap.org" 22 5 false { dial := none } =
      { Port := 22, State := "closed", Banner := "" } :=
  (scanPort_total_and_failure_closed "scanme.nmap.org" 22 5 false { dial := none }).2.1 rfl

/-- C5: an explicit comma-separated port list yields, in order, exactly
the entries that parse as integers in [1, 65535], dropping the rest; in
particular "22,80,443,99999,-1" yields [22, 80, 443]. -/
theorem parsePorts_explicit_list (portList : String) (start endP : Int)
    (h : portList ≠ "") :
    parsePorts portList start endP = (goSplit portList ',').filterMap specPortEntry ∧
    parsePorts "22,80,443,99999,-1" start endP = [22, 80, 443] := by
  refine ⟨parsePorts_explicit_eq portList start endP h, ?_⟩
  rw [parsePorts_explicit_eq "22,80,443,99999,-1" start endP (by decide)]
  decide

/-- C5 witness: the documented example list with default range bounds. -/
theorem parsePorts_explicit_list_witness :
    parsePorts "22,80,443,99999,-1" 1 1024 = [22, 80, 443] :=
  (parsePorts_explicit_list "22,80,443,99999,-1" 1 1024 (by decide)).2

/-- C7: for an empty port sequence the pool still terminates — the
initial state steps directly to the closed state — and the summary has
zero scanned ports, zero open ports and an empty open-port list. -/
theorem scanHost_empty_port_sequence (host : String) (workers timeoutSec : Nat)
    (grabBanner : Bool) (net : Int → NetEnv) (elapsedNs : Int)
    (hW : 1 ≤ workers) :
    Reaches workers (initState ([] : List Int)) ⟨[], [], [], true⟩ ∧
    summarize host [] elapsedNs (scanHostResults host timeoutSec grabBanner net []) =
      { Target := host, OpenPorts := 0, ScannedPorts := 0, TimeTaken := elapsedNs,
        Ports := [] } :=
  ⟨seq_reach_closed hW [], rfl⟩

/-- C7 witness: the empty scan with the default worker count. -/
theorem scanHost_empty_port_sequence_witness :
    Reaches 100 (initState ([] : List Int)) ⟨[], [], [], true⟩ ∧
    summarize "scanme.nmap.org" [] 7
        (scanHostResults "scanme.nmap.org" 5 false witnessNet []) =
      { Target := "scanme.nmap.org", OpenPorts := 0, ScannedPorts := 0,
        TimeTaken := 7, Ports := [] } :=
  scanHost_empty_port_sequence "scanme.nmap.org" 100 5 false witnessNet 7 (by decide)

/-- C8: the JSON rendering of a summary whose elapsed time is one second
(1000000000 ns) shows the claimed keys in order, omits the banner of a
bannerless open-port record and omits the `ports` key when no port is
open — but under the key `time_taken_ms` it carries the raw nanosecond
count 1000000000 of the `time.Duration`, not the millisecond count
1000 the claim describes. -/
theorem marshalScanSummary_emits_nanoseconds :
    marshalScanSummary
        { Target := "t", OpenPorts := 1, ScannedPorts := 2, TimeTaken := 1000000000,
          Ports := [{ Port := 80, State := "open", Banner := "" }] } =
      Json.obj [("target", Json.str "t"), ("open_ports", Json.num 1),
        ("scanned_ports", Json.num 2), ("time_taken_ms", Json.num 1000000000),
        ("ports", Json.arr [Json.obj [("port", Json.num 80), ("state", Json.str "open")]])] ∧
    marshalScanSummary
        { Target := "t", OpenPorts := 0, ScannedPorts := 2, TimeTaken := 1000000000,
          Ports := [] } =
      Json.obj [("target", Json.str "t"), ("open_ports", Json.num 0),
        ("scanned_ports", Json.num 2), ("time_taken_ms", Json.num 1000000000)] ∧
    (1000000000 : Int) ≠ 1000 :=
  ⟨rfl, rfl, by decide⟩

/-- C9: when a non-empty explicit list has no valid entry, `parsePorts`
returns the empty sequence, ignores the range bounds entirely (no
fallback), and the subsequent scan summary reports zero scanned and zero
open ports. -/
theorem parsePorts_all_entries_invalid (portList host : String)
    (start endP start₂ endP₂ elapsedNs : Int)
    (hne : portList ≠ "")
    (hall : ∀ e ∈ goSplit portList ',', specPortEntry e = none) :
    parsePorts portList start endP = [] ∧
    parsePorts portList start endP = parsePorts portList start₂ endP₂ ∧
    (summarize host (parsePorts portList start endP) elapsedNs []).ScannedPorts = 0 ∧
    (summarize host (parsePorts portList start endP) elapsedNs []).OpenPorts = 0 := by
  have h1 : parsePorts portList start endP = [] := by
    rw [parsePorts_explicit_eq portList start endP hne]
    exact List.filterMap_eq_nil_iff.mpr hall
  have h2 : parsePorts portList start₂ endP₂ = [] := by
    rw [parsePorts_explicit_eq portList start₂ endP₂ hne]
    exact List.filterMap_eq_nil_iff.mpr hall
  refine ⟨h1, h1.trans h2.symm, ?_, ?_⟩
  · rw [h1]; rfl
  · rw [h1]; rfl

/-- C9 witness: a list of only out-of-range and unparsable entries, with
range bounds 1-1024 also supplied, yields no ports and a zero summary. -/
theorem parsePorts_all_entries_invalid_witness :
    parsePorts "99999,-1,abc" 1 1024 = [] ∧
    parsePorts "99999,-1,abc" 1 1024 = parsePorts "99999,-1,abc" 5 10 ∧
    (summarize "h" (parsePorts "99999,-1,abc" 1 1024) 3 []).ScannedPorts = 0 ∧
    (summarize "h" (parsePorts "99999,-1,abc" 1 1024) 3 []).OpenPorts = 0 :=
  parsePorts_all_entries_invalid "99999,-1,abc" "h" 1 1024 5 10 3 (by decide) (by decide)

/-- C1: any completed run of the pool (at least one worker, result
channel closed) yields a summary whose scanned count is the length of the
submitted sequence, whose completion order covers every submitted port
exactly once (no duplicates, no omissions), whose `Ports` field holds
exactly the outcomes with state "open" — a permutation of the open
outcomes of the submitted sequence — and whose open count is the length
of that field. -/
theorem scanHost_summary_correct (host : String) (ports : List Int)
    (workers timeoutSec : Nat) (grabBanner : Bool) (net : Int → NetEnv)
    (elapsedNs : Int) (s : PoolState)
    (hW : 1 ≤ workers) (hrun : Reaches workers (initState ports) s)
    (hclosed : s.closed = true) :
    (summarize host ports elapsedNs
        (scanHostResults host timeoutSec grabBanner net s.done)).ScannedPorts
      = (ports.length : Int) ∧
    List.Perm s.done ports ∧
    (summarize host ports elapsedNs
        (scanHostResults host timeoutSec grabBanner net s.done)).Ports
      = (scanHostResults host timeoutSec grabBanner net s.done).filter
          (fun r => r.State == "open") ∧
    List.Perm
      (summarize host ports elapsedNs
        (scanHostResults host timeoutSec grabBanner net s.done)).Ports
      ((scanHostResults host timeoutSec grabBanner net ports).filter
          (fun r => r.State == "open")) ∧
    (summarize host ports elapsedNs
        (scanHostResults host timeoutSec grabBanner net s.done)).OpenPorts
      = ((summarize host ports elapsedNs
          (scanHostResults host timeoutSec grabBanner net s.done)).Ports.length : Int) := by
  have hdone : List.Perm s.done ports := done_perm_of_closed hrun hclosed
  refine ⟨rfl, hdone, rfl, ?_, rfl⟩
  exact (hdone.map (fun p => scanPort host p timeoutSec grabBanner (net p))).filter
    (fun (r : ScanResult) => r.State == "open")

/-- C1 witness: a sequential one-worker run over [22, 80] against a
network where only port 80 accepts. -/
theorem scanHost_summary_correct_witness :
    (summarize "h" [22, 80] 7 (scanHostResults "h" 5 false witnessNet [22, 80])).ScannedPorts
      = 2 ∧
    List.Perm ([22, 80] : List Int) [22, 80] ∧
    (summarize "h" [22, 80] 7 (scanHostResults "h" 5 false witnessNet [22, 80])).Ports
      = (scanHostResults "h" 5 false witnessNet [22, 80]).filter
          (fun r => r.State == "open") ∧
    List.Perm
      (summarize "h" [22, 80] 7 (scanHostResults "h" 5 false witnessNet [22, 80])).Ports
      ((scanHostResults "h" 5 false witnessNet [22, 80]).filter
          (fun r => r.State == "open")) ∧
    (summarize "h" [22, 80] 7 (scanHostResults "h" 5 false witnessNet [22, 80])).OpenPorts
      = ((summarize "h" [22, 80] 7
          (scanHostResults "h" 5 false witnessNet [22, 80])).Ports.length : Int) :=
  scanHost_summary_correct "h" [22, 80] 1 5 false witnessNet 7
    (⟨[], [], [22, 80], true⟩ : PoolState) (by decide) (seq_reach_closed (by decide) [22, 80]) rfl

/-- C2: with at least one worker, every reachable pool state keeps at
most `workers` probes in flight, independent of how many ports were
submitted; once the completion signal has fired the completion order
covers every submitted port and no further transition (in particular no
second completion signal) is possible; and from every reachable state a
completed run remains attainable. -/
theorem scanHost_pool_bound_and_completion (workers : Nat) (ports : List Int)
    (s : PoolState) (hW : 1 ≤ workers)
    (hrun : Reaches workers (initState ports) s) :
    s.inFlight.length ≤ workers ∧
    (s.closed = true →
      ((s.done : Multiset Int) = (ports : Multiset Int) ∧
        ∀ t, ¬ Step workers s t)) ∧
    (∃ t, Reaches workers s t ∧ t.closed = true ∧
      (t.done : Multiset Int) = (ports : Multiset Int)) := by
  obtain ⟨hb, hcons, hempty⟩ := pool_invariant hrun
  refine ⟨hb, fun hc => ⟨?_, fun t hstep => no_step_of_closed hc hstep⟩, ?_⟩
  · obtain ⟨hp, hf⟩ := hempty hc
    rw [← hcons, hp, hf]
    simp
  · cases hcl : s.closed with
    | true =>
      refine ⟨s, Relation.ReflTransGen.refl, hcl, ?_⟩
      obtain ⟨hp, hf⟩ := hempty hcl
      rw [← hcons, hp, hf]
      simp
    | false =>
      refine ⟨⟨[], [], s.done ++ s.inFlight ++ s.pending, true⟩,
        close_from_state hW s hcl, rfl, ?_⟩
      rw [← hcons]
      simp only [← Multiset.coe_add]
      abel

/-- C2 witness: the initial state of a one-worker run over [7]. -/
theorem scanHost_pool_bound_and_completion_witness :
    (initState [7]).inFlight.length ≤ 1 ∧
    ((initState [7]).closed = true →
      (((initState [7]).done : Multiset Int) = (([7] : List Int) : Multiset Int) ∧
        ∀ t, ¬ Step 1 (initState [7]) t)) ∧
    (∃ t, Reaches 1 (initState [7]) t ∧ t.closed = true ∧
      (t.done : Multiset Int) = (([7] : List Int) : Multiset Int)) :=
  scanHost_pool_bound_and_completion 1 [7] (initState [7]) (by decide)
    Relation.ReflTransGen.refl

/-- C6: against a fixed deterministic network, two completed runs over
the same port sequence with worker counts anywhere between 1 and the
number of ports yield summaries agreeing on target, open count and
scanned count, with open-port lists that are permutations of each other;
only the elapsed `TimeTaken` differs. -/
theorem scanHost_worker_count_independent (host : String) (ports : List Int)
    (W₁ W₂ timeoutSec : Nat) (grabBanner : Bool) (net : Int → NetEnv)
    (e₁ e₂ : Int) (s₁ s₂ : PoolState)
    (h₁ : 1 ≤ W₁) (h₁u : W₁ ≤ ports.length) (h₂ : 1 ≤ W₂) (h₂u : W₂ ≤ ports.length)
    (r₁ : Reaches W₁ (initState ports) s₁) (c₁ : s₁.closed = true)
    (r₂ : Reaches W₂ (initState ports) s₂) (c₂ : s₂.closed = true) :
    (summarize host ports e₁ (scanHostResults host timeoutSec grabBanner net s₁.done)).Target
      = (summarize host ports e₂ (scanHostResults host timeoutSec grabBanner net s₂.done)).Target ∧
    (summarize host ports e₁ (scanHostResults host timeoutSec grabBanner net s₁.done)).OpenPorts
      = (summarize host ports e₂ (scanHostResults host timeoutSec grabBanner net s₂.done)).OpenPorts ∧
    (summarize host ports e₁ (scanHostResults host timeoutSec grabBanner net s₁.done)).ScannedPorts
      = (summarize host ports e₂ (scanHostResults host timeoutSec grabBanner net s₂.done)).ScannedPorts ∧
    List.Perm
      (summarize host ports e₁ (scanHostResults host timeoutSec grabBanner net s₁.done)).Ports
      (summarize host ports e₂ (scanHostResults host timeoutSec grabBanner net s₂.done)).Ports := by
  have hd₁ : List.Perm s₁.done ports := done_perm_of_closed r₁ c₁
  have hd₂ : List.Perm s₂.done ports := done_perm_of_closed r₂ c₂
  have hperm : List.Perm
      ((scanHostResults host timeoutSec grabBanner net s₁.done).filter
        (fun r => r.State == "open"))
      ((scanHostResults host timeoutSec grabBanner net s₂.done).filter
        (fun r => r.State == "open")) :=
    ((hd₁.trans hd₂.symm).map
      (fun p => scanPort host p timeoutSec grabBanner (net p))).filter
      (fun r => r.State == "open")
  exact ⟨rfl, congrArg (fun n : Nat => (n : Int)) hperm.length_eq, rfl, hperm⟩

/-- C6 witness: one-worker and two-worker completed runs over [22, 80]
against the fixed witness network, with different elapsed times. -/
theorem scanHost_worker_count_independent_witness :
    (summarize "h" [22, 80] 7 (scanHostResults "h" 5 false witnessNet [22, 80])).Target
      = (summarize "h" [22, 80] 9 (scanHostResults "h" 5 false witnessNet [22, 80])).Target ∧
    (summarize "h" [22, 80] 7 (scanHostResults "h" 5 false witnessNet [22, 80])).OpenPorts
      = (summarize "h" [22, 80] 9 (scanHostResults "h" 5 false witnessNet [22, 80])).OpenPorts ∧
    (summarize "h" [22, 80] 7 (scanHostResults "h" 5 false witnessNet [22, 80])).ScannedPorts
      = (summarize "h" [22, 80] 9 (scanHostResults "h" 5 false witnessNet [22, 80])).ScannedPorts ∧
    List.Perm
      (summarize "h" [22, 80] 7 (scanHostResults "h" 5 false witnessNet [22, 80])).Ports
      (summarize "h" [22, 80] 9 (scanHostResults "h" 5 false witnessNet [22, 80])).Ports :=
  scanHost_worker_count_independent "h" [22, 80] 1 2 5 false witnessNet 7 9
    ⟨[], [], [22, 80], true⟩ ⟨[], [], [22, 80], true⟩
    (by decide) (by decide) (by decide) (by decide)
    (seq_reach_closed (by decide) [22, 80]) rfl
    (seq_reach_closed (by decide) [22, 80]) rfl

/-- C4 counterexample: `scanPort` discards the read error
(`n, _ := conn.Read(buf)`), so a read that hands back the byte "x"
together with an error still stores "x" as the banner — the claim's
"a read error ... leaves the banner absent" fails on the code. -/
theorem scanPort_read_error_banner_counterexample :
    (errConn.read bannerDeadlineSeconds).readErr = true ∧
    (scanPort "h" 1 5 true { dial := some errConn }).Banner = "x" ∧
    ("x" : String) ≠ "" :=
  ⟨rfl, by decide, by decide⟩

/-- C4 (amended): on a successful connection with banner grabbing
enabled, `scanPort` reads once under the fixed 2-second deadline into the
256-byte buffer, independent of the connect timeout; if the read hands
back at least one byte, the buffered bytes are stored whitespace-trimmed
as the banner (even when the read also reported an error); a read
handing back zero bytes leaves the banner absent; the banner never
exceeds the buffer size; and the state stays "open" throughout. -/
theorem scanPort_banner_behavior (host : String) (port : Int)
    (timeoutSec : Nat) (conn : Conn) :
    bannerDeadlineSeconds = 2 ∧
    bannerBufSize = 256 ∧
    (∀ t₂, scanPort host port timeoutSec true { dial := some conn }
        = scanPort host port t₂ true { dial := some conn }) ∧
    (scanPort host port timeoutSec true { dial := some conn }).State = "open" ∧
    (strTake (conn.read bannerDeadlineSeconds).data bannerBufSize ≠ "" →
      (scanPort host port timeoutSec true { dial := some conn }).Banner
        = goTrimSpace (strTake (conn.read bannerDeadlineSeconds).data bannerBufSize)) ∧
    (strTake (conn.read bannerDeadlineSeconds).data bannerBufSize = "" →
      (scanPort host port timeoutSec true { dial := some conn }).Banner = "") ∧
    (scanPort host port timeoutSec true { dial := some conn }).Banner.length
      ≤ bannerBufSize := by
  refine ⟨rfl, rfl, fun t₂ => rfl, ?_, ?_, ?_, ?_⟩
  · rw [scanPort_banner_eq]
  · intro h
    rw [scanPort_banner_eq]
    show (if 0 < (strTake (conn.read bannerDeadlineSeconds).data bannerBufSize).length
        then goTrimSpace (strTake (conn.read bannerDeadlineSeconds).data bannerBufSize)
        else "") = _
    rw [if_pos (string_length_pos h)]
  · intro h
    rw [scanPort_banner_eq]
    show (if 0 < (strTake (conn.read bannerDeadlineSeconds).data bannerBufSize).length
        then goTrimSpace (strTake (conn.read bannerDeadlineSeconds).data bannerBufSize)
        else "") = ""
    rw [h]
    rfl
  · rw [scanPort_banner_eq]
    show (if 0 < (strTake (conn.read bannerDeadlineSeconds).data bannerBufSize).length
        then goTrimSpace (strTake (conn.read bannerDeadlineSeconds).data bannerBufSize)
        else "").length ≤ bannerBufSize
    by_cases hlen : 0 < (strTake (conn.read bannerDeadlineSeconds).data bannerBufSize).length
    · rw [if_pos hlen]
      calc (goTrimSpace (strTake (conn.read bannerDeadlineSeconds).data bannerBufSize)).length
          ≤ ((conn.read bannerDeadlineSeconds).data.data.take bannerBufSize).length :=
            trimSpaceList_length_le _
        _ ≤ bannerBufSize := by
            rw [List.length_take]
            exact min_le_left _ _
    · rw [if_neg hlen]
      exact Nat.zero_le _

/-- C4 witness: a service sending "SSH-2.0-OpenSSH_8.9\r\n" right after
connect yields the trimmed banner with the state still open. -/
theorem scanPort_banner_behavior_witness :
    (scanPort "h" 22 5 true { dial := some sshConn }).State = "open" ∧
    (scanPort "h" 22 5 true { dial := some sshConn }).Banner = "SSH-2.0-OpenSSH_8.9" := by
  refine ⟨(scanPort_banner_behavior "h" 22 5 sshConn).2.2.2.1, ?_⟩
  have h := (scanPort_banner_behavior "h" 22 5 sshConn).2.2.2.2.1 (by decide)
  rw [h]
  decide

/-- C10: when an open port's service sends only whitespace, the stored
banner is the empty string and behaves exactly like an absent banner:
`scanPort` reports an empty banner, the JSON record omits the banner key,
and the human-readable line carries no " | " suffix. -/
theorem whitespace_banner_treated_absent (host : String) (port : Int)
    (timeoutSec : Nat) (conn : Conn)
    (hws : ∀ c ∈ (conn.read bannerDeadlineSeconds).data.data, goIsSpace c = true) :
    (scanPort host port timeoutSec true { dial := some conn }).Banner = "" ∧
    marshalScanResult (scanPort host port timeoutSec true { dial := some conn })
      = Json.obj [("port", Json.num port), ("state", Json.str "open")] ∧
    formatPortLine (scanPort host port timeoutSec true { dial := some conn })
      = toString port ++ "/tcp " ++ "open" := by
  have htake : ∀ c ∈ (conn.read bannerDeadlineSeconds).data.data.take bannerBufSize,
      goIsSpace c = true :=
    fun c hc => hws c (List.take_subset _ _ hc)
  have htrim : goTrimSpace (strTake (conn.read bannerDeadlineSeconds).data bannerBufSize)
      = "" := by
    show (⟨trimSpaceList ((conn.read bannerDeadlineSeconds).data.data.take bannerBufSize)⟩
      : String) = ""
    rw [trimSpaceList_eq_nil htake]
  have hfull : scanPort host port timeoutSec true { dial := some conn } =
      { Port := port, State := "open", Banner := "" } := by
    rw [scanPort_banner_eq]
    by_cases h : 0 < (strTake (conn.read bannerDeadlineSeconds).data bannerBufSize).length
    · rw [if_pos h, htrim]
    · rw [if_neg h]
  refine ⟨by rw [hfull], by rw [hfull]; rfl, by rw [hfull]; rfl⟩

/-- C10 witness: a service sending " \r\n " yields an empty banner, a
two-key JSON record and a bare human-readable line. -/
theorem whitespace_banner_treated_absent_witness :
    (scanPort "h" 80 5 true { dial := some wsConn }).Banner = "" ∧
    marshalScanResult (scanPort "h" 80 5 true { dial := some wsConn })
      = Json.obj [("port", Json.num 80), ("state", Json.str "open")] ∧
    formatPortLine (scanPort "h" 80 5 true { dial := some wsConn })
      = toString (80 : Int) ++ "/tcp " ++ "open" :=
  whitespace_banner_treated_absent "h" 80 5 wsConn (by decide)

end PortScanner
